import Mathlib

/-!
Verification of the ASM worker (allsafeASM/api): a shallow embedding of the
task-execution runtime — error classification, retry/backoff engine, message
finalization, scanner dispatch, DNS lookup shaping, the sharded DNS result
map, input validators and blob persistence — together with theorems settling
the specification claims against the code.

Strings are modelled as Lean `String`s; the Go code manipulates byte slices,
which coincide with character sequences on the ASCII data these components
handle (domain names, error texts, task kinds, IP literals).
-/

set_option maxRecDepth 4096

namespace ASMWorker

/-! ## String helpers mirroring the Go standard library -/

/-- Check whether pattern `p` occurs at the head of `s` (helper for substring
containment, mirroring the byte-wise scan done by Go `strings.Contains`). -/
def startsWithL : List Char → List Char → Bool
  | _, [] => true
  | [], _ :: _ => false
  | a :: s, b :: p => a == b && startsWithL s p

/-- Check whether pattern `p` occurs anywhere in `s` (Go `strings.Contains`). -/
def containsSeq : List Char → List Char → Bool
  | [], p => p.isEmpty
  | a :: s, p => startsWithL (a :: s) p || containsSeq s p

/-- Go `strings.Contains s pat` on strings (character-wise; identical to the
byte-wise original on ASCII data). -/
def strContains (s pat : String) : Bool :=
  containsSeq s.data pat.data

/-- Lowercase one character (Go `strings.ToLower`, restricted to the ASCII
range the classifier patterns live in). -/
def charToLower (c : Char) : Char :=
  if 65 ≤ c.toNat ∧ c.toNat ≤ 90 then Char.ofNat (c.toNat + 32) else c

/-- Go `strings.ToLower` on ASCII strings. -/
def toLowerStr (s : String) : String :=
  ⟨s.data.map charToLower⟩

/-- Go `strings.Split` with a one-character separator, over character lists:
split at every occurrence, keeping empty parts. -/
def splitOnChar (sep : Char) : List Char → List (List Char)
  | [] => [[]]
  | c :: rest =>
    if c == sep then [] :: splitOnChar sep rest
    else
      match splitOnChar sep rest with
      | [] => [[c]]
      | h :: t => (c :: h) :: t

/-- Go `strings.Split s sep` on strings with a one-character separator. -/
def splitStr (s : String) (sep : Char) : List String :=
  (splitOnChar sep s.data).map (fun l => ⟨l⟩)

/-- Whitespace test of Go `strings.TrimSpace` (ASCII range). -/
def isSpaceChar (c : Char) : Bool :=
  c == ' ' || (9 ≤ c.toNat && c.toNat ≤ 13)

/-- Go `strings.TrimSpace` on ASCII strings. -/
def trimStr (s : String) : String :=
  ⟨((s.data.dropWhile isSpaceChar).reverse.dropWhile isSpaceChar).reverse⟩

/-! ## Error taxonomy — internal/common/errors.go -/

/-- Error kinds of `AppError.Type` (internal/common/errors.go). -/
inductive ErrorType where
  | validation
  | configuration
  | network
  | timeout
  | permission
  | notFound
  | internal
  | scanner
  deriving DecidableEq, Repr

/-- Embeds `AppError.IsRetryable` (internal/common/errors.go:42-51): network,
timeout and scanner errors are retryable; validation, configuration,
permission and not_found are not; the default branch (internal) is retryable. -/
def ErrorType.isRetryable : ErrorType → Bool
  | .network => true
  | .timeout => true
  | .scanner => true
  | .validation => false
  | .configuration => false
  | .permission => false
  | .notFound => false
  | .internal => true

/-- The permanent (non-retryable) substring patterns of
`ErrorClassifier.ClassifyError` (internal/common/errors.go:139-151), in source
order: the eight patterns of the spec plus three more present in the code. -/
def permanentPatterns : List String :=
  ["unknown task type", "domain is required", "invalid domain",
   "not yet implemented", "permission denied", "unauthorized", "forbidden",
   "not found", "invalid", "scan_id is required", "task type is required"]

/-- The retryable substring patterns of `ErrorClassifier.ClassifyError`
(internal/common/errors.go:160-173). -/
def retryablePatterns : List String :=
  ["timeout", "connection", "network", "temporary", "rate limit", "throttle",
   "service unavailable", "internal server error", "bad gateway",
   "gateway timeout", "context deadline exceeded", "context canceled"]

/-- Embeds `ErrorClassifier.ClassifyError` (internal/common/errors.go:126-183)
for a foreign (non-AppError) error, as a function of the error text: lowercase
the text, return a validation error on a permanent-pattern match, else a
network error on a retryable-pattern match, else an internal error. -/
def classifyError (errText : String) : ErrorType :=
  let errStr := toLowerStr errText
  if permanentPatterns.any (fun p => strContains errStr p) then .validation
  else if retryablePatterns.any (fun p => strContains errStr p) then .network
  else .internal

/-- Embeds `ErrorClassifier.IsRetryableError` (internal/common/errors.go:186-189)
for a foreign error text. -/
def isRetryableError (errText : String) : Bool :=
  (classifyError errText).isRetryable

/-- The eight permanent patterns the spec lists (spec §4.1); the claim asserts
the classifier uses exactly these. -/
def specPermanentPatterns : List String :=
  ["unknown task type", "domain is required", "invalid domain",
   "not yet implemented", "permission denied", "unauthorized", "forbidden",
   "not found"]

/-- The retryability verdict described by the spec (spec §4.1): non-retryable
iff one of the eight permanent patterns occurs in the lowercased text;
retryable-pattern matches and unmatched errors are both retryable. -/
def specRetryableVerdict (errText : String) : Bool :=
  !(specPermanentPatterns.any (fun p => strContains (toLowerStr errText) p))

/-! ## Message processing result and the retry/backoff engine
    (internal/messaging/processor.go, src/unnamed/part_013) -/

/-- Embeds `models.MessageProcessingResult` (internal/models/task.go): outcome
of one processing attempt. The Go `Error error` field is modelled as an
optional error text. -/
structure MessageProcessingResult where
  success : Bool
  errText : Option String
  retryable : Bool
  retryCount : Nat
  deriving DecidableEq, Repr

/-- Maximum retry index of `MessageProcessor.ProcessMessage`
(`maxRetries := 3`). -/
def maxRetries : Nat := 3

/-- Base backoff delay of `MessageProcessor.ProcessMessage` in nanoseconds
(`baseDelay := 1 * time.Second`). -/
def baseDelayNs : Nat := 1000000000

/-- Embeds the retry loop of `MessageProcessor.ProcessMessage`
(internal/messaging/processor.go:27-86) along its main path (the surrounding
context is never cancelled). `op k` is the result the per-attempt body
(`processMessageWithRenewal`) produces at attempt index `k`. Returns the
final result, the list of backoff delays slept (in nanoseconds) and the
number of attempts performed. The body is run, its `RetryCount` is set to the
attempt index; on success or on a non-retryable failure or when
`attempt == maxRetries` the result is returned; otherwise the engine sleeps
`baseDelay * 2^attempt` and retries. The fuel argument makes the loop bound
explicit; the post-loop fallthrough of the source is unreachable and is
modelled by the fuel-0 case. -/
def retryLoop (op : Nat → MessageProcessingResult) :
    Nat → Nat → MessageProcessingResult × List Nat × Nat
  | _, 0 =>
    ({ success := false, errText := some "max retries exceeded",
       retryable := false, retryCount := maxRetries }, [], 0)
  | attempt, fuel + 1 =>
    let r := { op attempt with retryCount := attempt }
    if r.success then (r, [], 1)
    else if !r.retryable || attempt == maxRetries then (r, [], 1)
    else
      let rest := retryLoop op (attempt + 1) fuel
      (rest.1, baseDelayNs * 2 ^ attempt :: rest.2.1, rest.2.2 + 1)

/-- Embeds `MessageProcessor.ProcessMessage`: run the retry loop from attempt
0; the loop body executes for `attempt = 0 .. maxRetries`. -/
def processMessage (op : Nat → MessageProcessingResult) :
    MessageProcessingResult × List Nat × Nat :=
  retryLoop op 0 (maxRetries + 1)

/-- Final result returned by the retry engine. -/
def processMessageResult (op : Nat → MessageProcessingResult) :
    MessageProcessingResult :=
  (processMessage op).1

/-- Backoff delays (ns) slept by the retry engine, in order. -/
def processMessageDelays (op : Nat → MessageProcessingResult) : List Nat :=
  (processMessage op).2.1

/-- Number of attempts the retry engine performs. -/
def processMessageAttempts (op : Nat → MessageProcessingResult) : Nat :=
  (processMessage op).2.2

/-! ## Message finalization — ServiceBusClient.handleMessageResult
    (src/unnamed/part_013:151-185) -/

/-- A finalization call on the broker receiver, with the options the code
passes: `AbandonMessage` may carry a properties bag, `DeadLetterMessage` a
reason and a description. The source passes `nil` options to both. -/
inductive FinalizeAction where
  | complete
  | abandon (props : Option (List (String × String)))
  | deadLetter (reason descr : Option String)
  deriving DecidableEq, Repr

/-- Embeds `ServiceBusClient.shouldRetryMessage` (src/unnamed/part_013:183-185). -/
def shouldRetryMessage (result : MessageProcessingResult) : Bool :=
  result.retryable && decide (result.retryCount < 3)

/-- Embeds `ServiceBusClient.handleMessageResult` (src/unnamed/part_013:151-180)
as the list of finalization calls it performs on the receiver: complete on
success; abandon (with `nil` options) when `shouldRetryMessage`; dead-letter
(with `nil` options) otherwise. -/
def handleMessageResult (result : MessageProcessingResult) :
    List FinalizeAction :=
  if result.success then [.complete]
  else if shouldRetryMessage result then [.abandon none]
  else [.deadLetter none none]

/-! ## Scanner registry and dispatch — internal/scanners/factory.go,
    TaskHandler.processTask (src/unnamed/part_001:98-107) and
    TaskHandler.HandleTask (internal/handlers/task_handler.go:112-123) -/

/-- The task kinds registered in `NewScannerFactoryWithBlobClient`
(internal/scanners/factory.go:29-46): subfinder, httpx, dns_resolve,
port_scan. -/
def registeredTasks : List String :=
  ["subfinder", "httpx", "dns_resolve", "port_scan"]

/-- Embeds `ScannerFactory.GetScanner` (internal/scanners/factory.go:49-55);
a scanner is identified by its task kind, and unknown kinds produce an error
(`none`). -/
def getScanner (taskType : String) : Option String :=
  if registeredTasks.contains taskType then some taskType else none

/-- Embeds the scanner selection of `TaskHandler.processTask`
(src/unnamed/part_001:98-107): on a registry miss the handler logs a warning
and falls back to the subfinder scanner. -/
def processTaskScanner (taskType : String) : String :=
  match getScanner taskType with
  | some scanner => scanner
  | none => (getScanner "subfinder").getD "subfinder"

/-- Embeds the dispatch switch of `TaskHandler.HandleTask`
(internal/handlers/task_handler.go:112-123): subfinder, httpx and dnsx tasks
run their handler; the default branch runs the subfinder handler. -/
def handleTaskDispatch (taskType : String) : String :=
  if taskType == "subfinder" then "subfinder"
  else if taskType == "httpx" then "httpx"
  else if taskType == "dnsx" then "dnsx"
  else "subfinder"

/-! ## Per-host DNS lookup — DNSXScanner.performOptimizedDNSLookup
    (src/unnamed/part_004:416-467) -/

/-- Embeds `models.ResolutionInfo` (internal/models/scanner.go). -/
structure ResolutionInfo where
  status : String
  A : List String
  CNAME : List String
  deriving DecidableEq, Repr

/-- Outcome of the DNS client interaction inside
`performOptimizedDNSLookup`: the pooled client may fail to initialize, the
query may return an error or a nil response, or it returns DNS data with A
and CNAME record lists. -/
inductive DNSLookupOutcome where
  | clientError
  | queryError
  | nilResponse
  | response (a cname : List String)
  deriving DecidableEq, Repr

/-- Embeds `DNSXScanner.extractDNSRecords` (src/unnamed/part_004:454-462):
copy the A and CNAME lists into the resolution info when non-empty. -/
def extractDNSRecords (info : ResolutionInfo) (a cname : List String) :
    ResolutionInfo :=
  let info := if a.length > 0 then { info with A := a } else info
  if cname.length > 0 then { info with CNAME := cname } else info

/-- Embeds `DNSXScanner.hasNoRecords` (src/unnamed/part_004:465-467). -/
def hasNoRecords (info : ResolutionInfo) : Bool :=
  info.A.length == 0 && info.CNAME.length == 0

/-- Embeds `DNSXScanner.performOptimizedDNSLookup`
(src/unnamed/part_004:416-451): start from status "resolved"; client errors,
query errors and nil responses give status "error"; otherwise records are
extracted, and if none were found the status becomes "not_resolved". -/
def performOptimizedDNSLookup (outcome : DNSLookupOutcome) : ResolutionInfo :=
  let info : ResolutionInfo := { status := "resolved", A := [], CNAME := [] }
  match outcome with
  | .clientError => { info with status := "error" }
  | .queryError => { info with status := "error" }
  | .nilResponse => { info with status := "error" }
  | .response a cname =>
    let info := extractDNSRecords info a cname
    if hasNoRecords info then { info with status := "not_resolved" } else info

/-! ## Domain validation — Validator.ValidateDomain
    (internal/validation/validator.go:20-44) -/

/-- Embeds `isAlphanumeric` (internal/validation/validator.go:214-216): ASCII
lowercase letter, uppercase letter or digit. -/
def isAlphanumeric (c : Char) : Bool :=
  (97 ≤ c.toNat && c.toNat ≤ 122) || (65 ≤ c.toNat && c.toNat ≤ 90) ||
    (48 ≤ c.toNat && c.toNat ≤ 57)

/-- The forbidden substring patterns of `Validator.ValidateDomain`. -/
def invalidDomainPatterns : List String := ["..", ".-", "-."]

/-- Embeds `Validator.ValidateDomain` (internal/validation/validator.go:20-44)
as an accept/reject verdict (`true` means the Go function returns nil):
reject the empty string, strings longer than 253, strings containing "..",
".-" or "-.", and strings whose first or last character is not alphanumeric. -/
def validateDomain (domain : String) : Bool :=
  if domain == "" then false
  else if 253 < domain.length then false
  else if invalidDomainPatterns.any (fun p => strContains domain p) then false
  else
    match domain.data.head?, domain.data.getLast? with
    | some first, some last => isAlphanumeric first && isAlphanumeric last
    | _, _ => false

/-! ## Naabu input validation — Validator.ValidateNaabuInput and isValidIP
    (src/internal/azure/blobstorage.go:265-359 revision) -/

/-- Embeds `models.NaabuInput` (internal/models/scanner.go). -/
structure NaabuInput where
  domain : String
  ips : List String
  hostsFileLocation : String
  ports : List Int
  portRange : String
  topPorts : String
  rateLimit : Int
  concurrency : Int
  timeout : Int
  deriving DecidableEq, Repr

/-- Value of a non-empty all-digit character sequence; `none` otherwise
(digits part of Go `strconv.Atoi`). -/
def digitsVal (l : List Char) : Option Nat :=
  if l.isEmpty then none else go 0 l
where
  go (acc : Nat) : List Char → Option Nat
    | [] => some acc
    | c :: cs => if c.isDigit then go (acc * 10 + (c.toNat - 48)) cs else none

/-- Embeds Go `strconv.Atoi` on the short strings an IP part can be: an
optional sign followed by at least one digit; anything else errors. -/
def parseAtoi (s : String) : Option Int :=
  match s.data with
  | '+' :: ds => (digitsVal ds).map Int.ofNat
  | '-' :: ds => (digitsVal ds).map (fun n => -(n : Int))
  | ds => (digitsVal ds).map Int.ofNat

/-- Embeds `Validator.isValidIP` (src/internal/azure/blobstorage.go:344-359):
split on "."; require exactly 4 parts, each parsing via Atoi to a value in
0..255. -/
def isValidIP (ip : String) : Bool :=
  let parts := splitStr ip '.'
  if parts.length != 4 then false
  else parts.all (fun part =>
    match parseAtoi part with
    | some num => decide (0 ≤ num) && decide (num ≤ 255)
    | none => false)

/-- Embeds `Validator.ValidateNaabuInput`
(src/internal/azure/blobstorage.go:265-342) as an accept/reject verdict
(`true` means nil error), with the checks in source order: domain valid, all
IPs valid, hosts-file location non-blank when present, ports in 1..65535,
port range non-blank and containing "-" when present, top_ports in
full/100/1000 when present, rate limit at most 10000 when positive,
concurrency at most 100 when positive, timeout at most 3600 when positive,
and at least one of IPs or hosts-file location present. -/
def validateNaabuInput (input : NaabuInput) : Bool :=
  if !validateDomain input.domain then false
  else if !(input.ips.all fun ip => isValidIP ip) then false
  else if input.hostsFileLocation != "" && trimStr input.hostsFileLocation == ""
    then false
  else if !(input.ports.all fun port =>
      decide (1 ≤ port) && decide (port ≤ 65535)) then false
  else if input.portRange != "" &&
      (trimStr input.portRange == "" || !strContains input.portRange "-")
    then false
  else if input.topPorts != "" &&
      !(input.topPorts == "full" || input.topPorts == "100" ||
        input.topPorts == "1000") then false
  else if decide (0 < input.rateLimit) && decide (10000 < input.rateLimit)
    then false
  else if decide (0 < input.concurrency) && decide (100 < input.concurrency)
    then false
  else if decide (0 < input.timeout) && decide (3600 < input.timeout)
    then false
  else if input.ips.isEmpty && input.hostsFileLocation == "" then false
  else true

/-! ## Spec-side IP validity for the Naabu claim (refinement comparison) -/

/-- Spec-side IPv4 validity, following the claim wording "parse as IPv4":
four dot-separated decimal parts, each of value 0..255. -/
def specValidIPv4 (s : String) : Bool :=
  let parts := splitStr s '.'
  parts.length == 4 && parts.all (fun part =>
    match digitsVal part.data with
    | some num => decide (num ≤ 255)
    | none => false)

/-- Check that a string is a 1-4 character hexadecimal group of an IPv6
address. -/
def hexGroupOK (s : String) : Bool :=
  1 ≤ s.length && s.length ≤ 4 &&
    s.data.all (fun c =>
      c.isDigit || (97 ≤ c.toNat && c.toNat ≤ 102) ||
        (65 ≤ c.toNat && c.toNat ≤ 70))

/-- Split a character list at every occurrence of the two-character
separator `sep1 sep2` (used for the "::" of an IPv6 literal). -/
def splitOnPair (sep1 sep2 : Char) : List Char → List (List Char)
  | [] => [[]]
  | [c] => [[c]]
  | c1 :: c2 :: rest =>
    if c1 == sep1 && c2 == sep2 then [] :: splitOnPair sep1 sep2 rest
    else
      match splitOnPair sep1 sep2 (c2 :: rest) with
      | [] => [[c1]]
      | h :: t => (c1 :: h) :: t

/-- Spec-side IPv6 validity, following the claim wording "parse as IPv6":
the standard colon-hex textual form, either eight hexadecimal groups, or at
most seven groups with a single "::" compression. -/
def specValidIPv6 (s : String) : Bool :=
  match (splitOnPair ':' ':' s.data).map (fun l => (⟨l⟩ : String)) with
  | [whole] =>
    let parts := splitStr whole ':'
    parts.length == 8 && parts.all hexGroupOK
  | [left, right] =>
    let leftParts := if left == "" then [] else splitStr left ':'
    let rightParts := if right == "" then [] else splitStr right ':'
    leftParts.all hexGroupOK && rightParts.all hexGroupOK &&
      leftParts.length + rightParts.length ≤ 7
  | _ => false

/-- Spec-side IP validity: parses as IPv4 or IPv6. -/
def specValidIP (s : String) : Bool :=
  specValidIPv4 s || specValidIPv6 s

/-! ## Sharded DNS result map and the worker/collector pipeline
    (src/unnamed/part_004:20-72, 330-414) -/

/-- UTF-8 byte values of a string (the bytes Go writes into the FNV hasher). -/
def utf8Bytes (s : String) : List Nat :=
  (s.data.flatMap (fun c => String.utf8EncodeChar c)).map UInt8.toNat

/-- The 32-bit FNV-1a hash (hash/fnv New32a): start from the offset basis and
for each byte xor it in and multiply by the FNV prime, modulo 2^32. -/
def fnv32a (bytes : List Nat) : Nat :=
  bytes.foldl (fun h b => ((h ^^^ b) * 16777619) % 4294967296) 2166136261

/-- Embeds `hashString` (src/unnamed/part_004:68-72): FNV-1a of the UTF-8
bytes of the string. -/
def hashString (s : String) : Nat :=
  fnv32a (utf8Bytes s)

/-- Number of shards of the DNSX scanner (`shardCount: 16`,
src/unnamed/part_004:108). -/
def shardCount : Nat := 16

/-- A shard is its record map, modelled as an association list with at most
one binding per key (Go map semantics). The sharded map is the family of
shards indexed by shard number; only indices below `shardCount` are ever
touched. -/
def ShardMap : Type := Nat → List (String × ResolutionInfo)

/-- The empty sharded result map (`NewShardedResultMap`). -/
def emptyShards : ShardMap := fun _ => []

/-- Does the association list bind key `k`? -/
def assocHasKey (k : String) : List (String × ResolutionInfo) → Bool
  | [] => false
  | (k', _) :: rest => k' == k || assocHasKey k rest

/-- Look up key `k` in the association list. -/
def assocFind (k : String) : List (String × ResolutionInfo) → Option ResolutionInfo
  | [] => none
  | (k', v) :: rest => if k' == k then some v else assocFind k rest

/-- Go map assignment `m[k] = v`: overwrite the binding if `k` is present,
append it otherwise. -/
def assocSet (k : String) (v : ResolutionInfo) :
    List (String × ResolutionInfo) → List (String × ResolutionInfo)
  | [] => [(k, v)]
  | (k', v') :: rest =>
    if k' == k then (k', v) :: rest else (k', v') :: assocSet k v rest

/-- Home shard index of a key: `hashString(domain) % s.count`
(src/unnamed/part_004:48). -/
def homeShard (k : String) : Nat :=
  hashString k % shardCount

/-- Embeds `ShardedResultMap.Set` (src/unnamed/part_004:47-52): write the
binding into the shard selected by the hash of the key. -/
def shardSet (k : String) (v : ResolutionInfo) (m : ShardMap) : ShardMap :=
  fun i => if i = homeShard k then assocSet k v (m i) else m i

/-- Number of bindings for key `k` in an association list. -/
def countKey (k : String) (l : List (String × ResolutionInfo)) : Nat :=
  l.countP (fun p => p.1 == k)

/-- Embeds `ShardedResultMap.GetAll` (src/unnamed/part_004:55-65) as the
multiset of bindings over all shards. -/
def allEntries (m : ShardMap) : List (String × ResolutionInfo) :=
  ((List.range shardCount).map m).flatten

/-- One worker iteration of `DNSXScanner.worker` (src/unnamed/part_004:380-414)
combined with the collector insert (src/unnamed/part_004:347-352), along the
uncancelled path: trim the subdomain, skip it when blank, otherwise resolve
it (`oracle` stands for `performOptimizedDNSLookup` on the live network) and
store the result in the sharded map. The second state component counts the
`Set` calls whose key was already populated. -/
def dnsWorkerStep (oracle : String → ResolutionInfo) (st : ShardMap × Nat)
    (subdomain : String) : ShardMap × Nat :=
  let clean := trimStr subdomain
  if clean == "" then st
  else
    let overwrites :=
      if assocHasKey clean (st.1 (homeShard clean)) then st.2 + 1 else st.2
    (shardSet clean (oracle clean) st.1, overwrites)

/-- Embeds `DNSXScanner.processDNSResolutionOptimized`
(src/unnamed/part_004:330-378) as the sequential composition of the feeder,
workers and collector over the input order (every published result is
collected before `GetAll`): fold the worker step over the subdomain list
starting from the empty map. -/
def runDNSCollection (oracle : String → ResolutionInfo)
    (subdomains : List String) : ShardMap × Nat :=
  subdomains.foldl (dnsWorkerStep oracle) (emptyShards, 0)

/-- The post-filtering input set: trimmed subdomains with blanks removed
(the claim reads "modulo whitespace/empty filtering"). -/
def cleanedHosts (subdomains : List String) : List String :=
  (subdomains.map trimStr).filter (fun c => c ≠ "")

/-! ## Result persistence — TaskHandler.finalizeTask
    (src/unnamed/part_001:260-294) and BlobStorageClient
    (src/unnamed/part_014) -/

/-- Embeds `models.SubfinderResult` (internal/models/scanner.go). -/
structure SubfinderResult where
  domain : String
  subdomains : List String
  deriving DecidableEq, Repr

/-- The `Data any` payload of a task result, as the cases `finalizeTask`
distinguishes: the type assertion to `models.SubfinderResult` either succeeds
or the payload is something else. -/
inductive TaskData where
  | subfinderData (sr : SubfinderResult)
  | otherData
  deriving DecidableEq, Repr

/-- Embeds `models.TaskResult` (internal/models/task.go). -/
structure TaskResult where
  task : String
  scanID : String
  domain : String
  status : String
  data : TaskData
  errText : String
  timestamp : String
  duration : String
  deriving DecidableEq, Repr

/-- A blob upload performed by the storage client: either a plain-text
artifact or the JSON-encoded task result, each under its blob name. -/
inductive BlobWrite where
  | txtBlob (name content : String)
  | jsonBlob (name : String) (result : TaskResult)
  deriving DecidableEq, Repr

/-- Embeds `BlobStorageClient.StoreSubfinderTextResult`
(src/unnamed/part_014:101-114): upload the newline-joined subdomains as
`{domain}-{scanID}/{task}/out/{uuid}.txt`. -/
def storeSubfinderTextResult (sr : SubfinderResult) (scanID task uuid : String) :
    BlobWrite :=
  .txtBlob (sr.domain ++ "-" ++ scanID ++ "/" ++ task ++ "/out/" ++ uuid ++ ".txt")
    (String.intercalate "\n" sr.subdomains)

/-- Embeds `BlobStorageClient.StoreTaskResult` (src/unnamed/part_014:35-55):
upload the JSON-encoded task result as
`{domain}-{scanID}/{task}/out/{uuid}.json`. -/
def storeTaskResult (result : TaskResult) (uuid : String) : BlobWrite :=
  .jsonBlob
    (result.domain ++ "-" ++ result.scanID ++ "/" ++ result.task ++ "/out/" ++
      uuid ++ ".json")
    result

/-- Embeds the storage decision of `TaskHandler.finalizeTask`
(src/unnamed/part_001:260-294) as the list of blob uploads it performs: for a
subfinder task whose data is a `SubfinderResult` only the text artifact is
written (no JSON); for a subfinder task whose type assertion fails nothing is
written; every other task writes the JSON task result. -/
def finalizeTaskWrites (result : TaskResult) (uuid : String) : List BlobWrite :=
  if result.task == "subfinder" then
    match result.data with
    | .subfinderData sr =>
      [storeSubfinderTextResult sr result.scanID result.task uuid]
    | .otherData => []
  else [storeTaskResult result uuid]

/-! ## Theorems -/

/-- C4, counterexample: the claim says the classifier uses exactly the eight
permanent patterns of the spec; the error text "invalid port" matches the
extra code pattern "invalid", so the code classifies it non-retryable while
the claimed rule makes it retryable. -/
theorem c4_counterexample :
    isRetryableError "invalid port" = false ∧
      specRetryableVerdict "invalid port" = true := by
  decide

/-- C4, amended: a foreign error is classified non-retryable exactly when its
lowercased text contains one of the ELEVEN permanent patterns of the code
(the eight of the spec plus "invalid", "scan_id is required", "task type is
required"); every other foreign error — whether it matches a retryable
pattern or neither list — is classified retryable. -/
theorem classifyError_retryable_iff (s : String) :
    isRetryableError s =
      !(permanentPatterns.any (fun p => strContains (toLowerStr s) p)) := by
  unfold isRetryableError classifyError
  by_cases h : permanentPatterns.any (fun p => strContains (toLowerStr s) p)
  · simp [h, ErrorType.isRetryable]
  · simp only [Bool.not_eq_true] at h
    by_cases h2 : retryablePatterns.any (fun p => strContains (toLowerStr s) p) <;>
      simp [h, h2, ErrorType.isRetryable]

/-- C3: on a registry miss the dispatch layer does not fail — the task kind
"unknown_xyz" is not in the scanner registry, yet `processTask` silently
substitutes the subfinder scanner (src/unnamed/part_001:102-107), and the
switch of the older `HandleTask` revision likewise runs the subfinder handler
on its default branch (internal/handlers/task_handler.go:121-122). This
contradicts the claim (and the spec, which flags the fallback as a bug): the
spec-intended behavior is a non-retryable failure with no substitution. -/
theorem c3_fallback_to_subfinder :
    getScanner "unknown_xyz" = none ∧
      processTaskScanner "unknown_xyz" = "subfinder" ∧
      handleTaskDispatch "unknown_xyz" = "subfinder" := by
  decide

/-- C2: message finalization invokes exactly one of complete, abandon and
dead-letter per processed receipt — complete iff the result succeeded,
abandon iff it failed retryably with fewer than 3 retries, dead-letter
otherwise. -/
theorem handleMessageResult_exactly_one (r : MessageProcessingResult) :
    (handleMessageResult r).length = 1 ∧
      (FinalizeAction.complete ∈ handleMessageResult r ↔ r.success = true) ∧
      ((∃ props, FinalizeAction.abandon props ∈ handleMessageResult r) ↔
        (r.success = false ∧ r.retryable = true ∧ r.retryCount < 3)) ∧
      ((∃ reason descr,
          FinalizeAction.deadLetter reason descr ∈ handleMessageResult r) ↔
        (r.success = false ∧ (r.retryable = false ∨ 3 ≤ r.retryCount))) := by
  obtain ⟨s, e, rb, rc⟩ := r
  unfold handleMessageResult shouldRetryMessage
  cases s <;> cases rb <;> by_cases h : rc < 3 <;> simp_all
  rw [if_neg (Nat.not_lt.mpr h)]
  simp [Nat.not_lt.mpr h]

/-- C2, witness: a failed retryable result with retry count 2 is finalized
with exactly one action, an abandon. -/
theorem handleMessageResult_exactly_one_witness :
    (handleMessageResult ⟨false, some "scanner: boom", true, 2⟩).length = 1 ∧
      ((∃ props, FinalizeAction.abandon props ∈
          handleMessageResult ⟨false, some "scanner: boom", true, 2⟩) ↔
        (false = false ∧ true = true ∧ 2 < 3)) :=
  ⟨(handleMessageResult_exactly_one ⟨false, some "scanner: boom", true, 2⟩).1,
   (handleMessageResult_exactly_one ⟨false, some "scanner: boom", true, 2⟩).2.2.1⟩

/-- C5, counterexample: a failed, non-retryable result with retry count 3 is
dead-lettered with nil options — no reason string is attached, in particular
not "ProcessingFailed", and no description; the claimed reason differs from
what the code passes. -/
theorem c5_counterexample :
    handleMessageResult ⟨false, some "scanner: boom", false, 3⟩ =
        [FinalizeAction.deadLetter none none] ∧
      (none : Option String) ≠ some "ProcessingFailed" := by
  decide

/-- C5, amended: every dead-letter call passes no reason and no description
(nil options), and every abandon call passes no properties bag (nil options);
in particular dead-lettered messages carry no "ProcessingFailed" reason and
abandoned messages carry no RetryCount property from this worker. -/
theorem handleMessageResult_nil_options (r : MessageProcessingResult) :
    (∀ reason descr,
        FinalizeAction.deadLetter reason descr ∈ handleMessageResult r →
          reason = none ∧ descr = none) ∧
      (∀ props, FinalizeAction.abandon props ∈ handleMessageResult r →
        props = none) := by
  unfold handleMessageResult
  by_cases h1 : r.success <;> [skip; by_cases h2 : shouldRetryMessage r] <;>
    simp [h1, *]

/-- C5, amended, witness: at a concrete dead-lettered result the options are
nil. -/
theorem handleMessageResult_nil_options_witness :
    ∀ reason descr,
      FinalizeAction.deadLetter reason descr ∈
          handleMessageResult ⟨false, some "scanner: boom", false, 3⟩ →
        reason = none ∧ descr = none :=
  (handleMessageResult_nil_options ⟨false, some "scanner: boom", false, 3⟩).1

/-- C6: the per-host DNS lookup returns status "error" exactly on a client
error, a query error or a nil response; on a successful query the A and CNAME
records are copied from the response and the status is "not_resolved" when
both lists are empty and "resolved" otherwise. -/
theorem performOptimizedDNSLookup_spec (o : DNSLookupOutcome) :
    ((performOptimizedDNSLookup o).status = "error" ↔
      (o = .clientError ∨ o = .queryError ∨ o = .nilResponse)) ∧
      (∀ a cname, o = .response a cname →
        (performOptimizedDNSLookup o).A = a ∧
          (performOptimizedDNSLookup o).CNAME = cname ∧
          (performOptimizedDNSLookup o).status =
            (if a = [] ∧ cname = [] then "not_resolved" else "resolved")) := by
  cases o with
  | clientError => simp [performOptimizedDNSLookup]
  | queryError => simp [performOptimizedDNSLookup]
  | nilResponse => simp [performOptimizedDNSLookup]
  | response a cname =>
    rcases a with _ | ⟨x, xs⟩ <;> rcases cname with _ | ⟨y, ys⟩ <;>
      simp [performOptimizedDNSLookup, extractDNSRecords, hasNoRecords]

/-- C6, witness: a response with one A record and no CNAME records yields
status "resolved" with the A record copied. -/
theorem performOptimizedDNSLookup_spec_witness :
    (performOptimizedDNSLookup (.response ["1.2.3.4"] [])).A = ["1.2.3.4"] ∧
      (performOptimizedDNSLookup (.response ["1.2.3.4"] [])).CNAME = [] ∧
      (performOptimizedDNSLookup (.response ["1.2.3.4"] [])).status =
        (if ["1.2.3.4"] = ([] : List String) ∧ ([] : List String) = []
          then "not_resolved" else "resolved") :=
  (performOptimizedDNSLookup_spec (.response ["1.2.3.4"] [])).2
    ["1.2.3.4"] [] rfl

/-- C8: domain validation fails exactly when the string is empty, longer than
253 characters, contains "..", ".-" or "-.", or its first or last character
is not alphanumeric; in particular every string of length 254 is rejected. -/
theorem validateDomain_spec (s : String) :
    (validateDomain s = false ↔
      (s = "" ∨ 253 < s.length ∨ strContains s ".." = true ∨
        strContains s ".-" = true ∨ strContains s "-." = true ∨
        s.data.head?.all isAlphanumeric = false ∨
        s.data.getLast?.all isAlphanumeric = false)) ∧
      (s.length = 254 → validateDomain s = false) := by
  have main : validateDomain s = false ↔
      (s = "" ∨ 253 < s.length ∨ strContains s ".." = true ∨
        strContains s ".-" = true ∨ strContains s "-." = true ∨
        s.data.head?.all isAlphanumeric = false ∨
        s.data.getLast?.all isAlphanumeric = false) := by
    by_cases he : s = ""
    · subst he
      simp [validateDomain]
    · have hnil : s.data ≠ [] := fun h =>
        he (String.ext (by simpa using h))
      obtain ⟨f, rest, hcons⟩ := List.exists_cons_of_ne_nil hnil
      have hhead : s.data.head? = some f := by rw [hcons]; rfl
      rcases hlast : s.data.getLast? with _ | l
      · exact absurd (List.getLast?_eq_none_iff.mp hlast) hnil
      unfold validateDomain
      rw [hhead, hlast]
      simp only [invalidDomainPatterns, List.any_cons, List.any_nil,
        Bool.or_false, beq_iff_eq, he, if_false]
      by_cases hlen : 253 < s.length
      · simp [hlen, he]
      · by_cases hpat : (strContains s ".." || (strContains s ".-" ||
            strContains s "-.")) = true
        · simp only [hpat, if_true]
          simp only [Bool.or_eq_true] at hpat
          simp [he, hlen]
          tauto
        · simp only [hpat, if_false]
          simp only [Bool.or_eq_true] at hpat
          push_neg at hpat
          simp [he, hlen, hpat.1, hpat.2.1, hpat.2.2, Option.all_some]
          cases hf : isAlphanumeric f <;> simp [hf]
  exact ⟨main, fun h254 => main.mpr (Or.inr (Or.inl (by omega)))⟩

/-- C8, witness: the 254-character all-letter string is rejected, and the
rejection is also produced by evaluating the validator there. -/
theorem validateDomain_spec_witness :
    validateDomain ⟨List.replicate 254 'a'⟩ = false :=
  (validateDomain_spec ⟨List.replicate 254 'a'⟩).2 (by decide)

/-- C10: a completed subfinder task with a `SubfinderResult` payload persists
exactly one blob — the newline-joined text artifact named
`{domain}-{scanID}/subfinder/out/{uuid}.txt` — and no JSON task-result blob;
every other task kind persists exactly the JSON task result. -/
theorem finalizeTask_writes_spec :
    (∀ (r : TaskResult) (uuid : String) (sr : SubfinderResult),
        r.task = "subfinder" → r.data = .subfinderData sr →
          finalizeTaskWrites r uuid =
              [BlobWrite.txtBlob
                (sr.domain ++ "-" ++ r.scanID ++ "/" ++ "subfinder" ++
                  "/out/" ++ uuid ++ ".txt")
                (String.intercalate "\n" sr.subdomains)] ∧
            ∀ name res, BlobWrite.jsonBlob name res ∉ finalizeTaskWrites r uuid) ∧
      (∀ (r : TaskResult) (uuid : String), r.task ≠ "subfinder" →
        finalizeTaskWrites r uuid = [storeTaskResult r uuid]) := by
  constructor
  · intro r uuid sr htask hdata
    simp [finalizeTaskWrites, htask, hdata, storeSubfinderTextResult]
  · intro r uuid htask
    simp [finalizeTaskWrites, htask]

/-- C10, witness: a concrete completed subfinder task writes only its text
artifact, and a concrete dnsx task writes only its JSON result. -/
theorem finalizeTask_writes_spec_witness :
    (finalizeTaskWrites
        { task := "subfinder", scanID := "S1", domain := "example.com",
          status := "completed",
          data := .subfinderData
            { domain := "example.com",
              subdomains := ["example.com", "a.example.com"] },
          errText := "", timestamp := "t", duration := "1s" } "u1" =
      [BlobWrite.txtBlob
        ("example.com" ++ "-" ++ "S1" ++ "/" ++ "subfinder" ++ "/out/" ++
          "u1" ++ ".txt")
        (String.intercalate "\n" ["example.com", "a.example.com"])]) ∧
      (finalizeTaskWrites
          { task := "dns_resolve", scanID := "S1", domain := "example.com",
            status := "completed", data := .otherData, errText := "",
            timestamp := "t", duration := "1s" } "u2" =
        [storeTaskResult
          { task := "dns_resolve", scanID := "S1", domain := "example.com",
            status := "completed", data := .otherData, errText := "",
            timestamp := "t", duration := "1s" } "u2"]) :=
  ⟨(finalizeTask_writes_spec.1 _ "u1" _ rfl rfl).1,
   finalizeTask_writes_spec.2 _ "u2" (by decide)⟩

/-- An operation whose every attempt fails with a retryable (network-like)
error; used to exercise the retry engine at its bound. -/
def alwaysRetryableFailure : Nat → MessageProcessingResult :=
  fun _ =>
    { success := false, errText := some "dial tcp: connection refused",
      retryable := true, retryCount := 0 }

/-- C1, counterexample: on an operation that always fails retryably the
engine performs 4 attempts (attempt indices 0..3), not at most 3 as claimed,
sleeping 1s, 2s and 4s between consecutive attempts. -/
theorem c1_counterexample :
    processMessageAttempts alwaysRetryableFailure = 4 ∧
      ¬processMessageAttempts alwaysRetryableFailure ≤ 3 ∧
      processMessageDelays alwaysRetryableFailure =
        [1000000000, 2000000000, 4000000000] := by
  decide

set_option maxHeartbeats 3200000 in
/-- C1, amended: kinds validation, configuration, permission and not_found
are exactly the non-retryable ones; and for every run of the retry engine,
between 1 and 4 attempts are performed, the delays slept are the prefix
1s, 2s, 4s (in nanoseconds, `baseDelay * 2^attempt`) matching the attempts
performed, every non-final attempt failed retryably (so a non-retryable
failure is returned after the failing attempt with no further attempt), a run
stopping before the 4-attempt bound did so because of success or a
non-retryable failure, and the returned result is the final attempt's result
with its retry count set to the final attempt index. -/
theorem processMessage_backoff_spec (op : Nat → MessageProcessingResult) :
    (∀ t : ErrorType, t.isRetryable = false ↔
        (t = .validation ∨ t = .configuration ∨ t = .permission ∨
          t = .notFound)) ∧
      1 ≤ processMessageAttempts op ∧ processMessageAttempts op ≤ 4 ∧
      processMessageDelays op =
        (List.range (processMessageAttempts op - 1)).map
          (fun k => baseDelayNs * 2 ^ k) ∧
      (∀ k, k + 1 < processMessageAttempts op →
        (op k).success = false ∧ (op k).retryable = true) ∧
      (processMessageAttempts op < 4 →
        (op (processMessageAttempts op - 1)).success = true ∨
          (op (processMessageAttempts op - 1)).retryable = false) ∧
      processMessageResult op =
        { op (processMessageAttempts op - 1) with
            retryCount := processMessageAttempts op - 1 } := by
  refine ⟨fun t => by cases t <;> simp [ErrorType.isRetryable], ?_⟩
  by_cases h0s : (op 0).success <;>
    by_cases h0r : (op 0).retryable <;>
    by_cases h1s : (op 1).success <;>
    by_cases h1r : (op 1).retryable <;>
    by_cases h2s : (op 2).success <;>
    by_cases h2r : (op 2).retryable <;>
    by_cases h3s : (op 3).success <;>
    simp_all [processMessageAttempts, processMessageDelays,
      processMessageResult, processMessage, retryLoop, maxRetries,
      baseDelayNs, List.range_succ] <;>
    (intro k hk; rcases k with _ | _ | _ | k <;>
      first
      | exact ⟨by assumption, by assumption⟩
      | omega)

/-- C1, amended, witness: the characterization applied to the
always-retryably-failing operation. -/
theorem processMessage_backoff_spec_witness :
    1 ≤ processMessageAttempts alwaysRetryableFailure ∧
      processMessageAttempts alwaysRetryableFailure ≤ 4 :=
  ⟨(processMessage_backoff_spec alwaysRetryableFailure).2.1,
   (processMessage_backoff_spec alwaysRetryableFailure).2.2.1⟩

/-- A Naabu input whose single IP is a valid IPv6 address and whose other
fields satisfy every other validation constraint. -/
def naabuIPv6Example : NaabuInput :=
  { domain := "example.com", ips := ["2001:db8::1"], hostsFileLocation := "",
    ports := [], portRange := "", topPorts := "", rateLimit := 0,
    concurrency := 0, timeout := 0 }

/-- C9, counterexample: "2001:db8::1" parses as IPv6 (and the input's domain
is valid), yet the validator rejects the input, because `isValidIP` accepts
only dotted-quad IPv4 strings. -/
theorem c9_counterexample :
    specValidIP "2001:db8::1" = true ∧
      validateDomain naabuIPv6Example.domain = true ∧
      validateNaabuInput naabuIPv6Example = false := by
  decide

section NaabuCharacterization

attribute [local irreducible] validateDomain isValidIP trimStr strContains

set_option maxHeartbeats 1000000 in
/-- C9, amended: the Naabu validator accepts an input exactly when the domain
is valid, every provided IP is a dotted-quad IPv4 literal (IPv6 addresses are
rejected), the hosts-file location is non-blank when present, every port is
in 1..65535, the port range is non-blank and contains "-" when present,
top_ports is full/100/1000 when present, positive rate limit, concurrency and
timeout are within 10000, 100 and 3600 respectively, and at least one of IPs
or hosts-file location is provided. -/
theorem validateNaabuInput_spec (i : NaabuInput) :
    validateNaabuInput i = true ↔
      (validateDomain i.domain = true ∧
        (∀ ip ∈ i.ips, isValidIP ip = true) ∧
        (i.hostsFileLocation ≠ "" → trimStr i.hostsFileLocation ≠ "") ∧
        (∀ p ∈ i.ports, 1 ≤ p ∧ p ≤ 65535) ∧
        (i.portRange ≠ "" →
          trimStr i.portRange ≠ "" ∧ strContains i.portRange "-" = true) ∧
        (i.topPorts = "" ∨ i.topPorts = "full" ∨ i.topPorts = "100" ∨
          i.topPorts = "1000") ∧
        (0 < i.rateLimit → i.rateLimit ≤ 10000) ∧
        (0 < i.concurrency → i.concurrency ≤ 100) ∧
        (0 < i.timeout → i.timeout ≤ 3600) ∧
        (i.ips ≠ [] ∨ i.hostsFileLocation ≠ "")) := by
  obtain ⟨dom, ips, hfl, ports, pr, tp, rl, cc, tmo⟩ := i
  simp only [validateNaabuInput]
  split_ifs with h1 h2 h3 h4 h5 h6 h7 h8 h9 h10 <;>
    simp_all [List.all_eq_true, List.isEmpty_iff]
  all_goals first
  | tauto
  | aesop

end NaabuCharacterization

/-- C9, amended, witness: the characterization applied to a concrete accepted
input. -/
theorem validateNaabuInput_spec_witness :
    validateNaabuInput
      { domain := "example.com", ips := ["10.0.0.1"], hostsFileLocation := "",
        ports := [80], portRange := "", topPorts := "100", rateLimit := 1000,
        concurrency := 50, timeout := 600 } = true :=
  (validateNaabuInput_spec
    { domain := "example.com", ips := ["10.0.0.1"], hostsFileLocation := "",
      ports := [80], portRange := "", topPorts := "100", rateLimit := 1000,
      concurrency := 50, timeout := 600 }).mpr
    (by refine ⟨by decide, by decide, by decide, ?_, by decide, by decide,
      by decide, by decide, by decide, by decide⟩
        intro p hp
        simp only [List.mem_singleton] at hp
        omega)

/-! ## Association-list and sharded-map lemmas for the DNSX result map -/

theorem assocHasKey_set (k k' : String) (v : ResolutionInfo)
    (l : List (String × ResolutionInfo)) :
    assocHasKey k (assocSet k' v l) = (k' == k || assocHasKey k l) := by
  induction l with
  | nil => simp [assocSet, assocHasKey]
  | cons p rest ih =>
    obtain ⟨pk, pv⟩ := p
    by_cases h : pk = k'
    · subst h
      simp [assocSet, assocHasKey]
    · simp only [assocSet, beq_iff_eq, h, if_false, assocHasKey, ih]
      rw [Bool.or_left_comm]

theorem assocFind_set_self (k : String) (v : ResolutionInfo)
    (l : List (String × ResolutionInfo)) :
    assocFind k (assocSet k v l) = some v := by
  induction l with
  | nil => simp [assocSet, assocFind]
  | cons p rest ih =>
    obtain ⟨pk, pv⟩ := p
    by_cases h : pk = k <;> simp [assocSet, assocFind, h, ih]

theorem assocFind_set_ne (k k' : String) (v : ResolutionInfo)
    (l : List (String × ResolutionInfo)) (hne : k' ≠ k) :
    assocFind k (assocSet k' v l) = assocFind k l := by
  induction l with
  | nil => simp [assocSet, assocFind, hne]
  | cons p rest ih =>
    obtain ⟨pk, pv⟩ := p
    by_cases h : pk = k'
    · subst h
      simp [assocSet, assocFind, hne]
    · simp [assocSet, assocFind, h, ih]

theorem countKey_set_ne (k k' : String) (v : ResolutionInfo)
    (l : List (String × ResolutionInfo)) (hne : k' ≠ k) :
    countKey k (assocSet k' v l) = countKey k l := by
  induction l with
  | nil => simp [assocSet, countKey, List.countP_cons, hne]
  | cons p rest ih =>
    obtain ⟨pk, pv⟩ := p
    by_cases h : pk = k'
    · subst h
      simp [assocSet, countKey, List.countP_cons, hne]
    · simp only [assocSet, beq_iff_eq, h, if_false]
      simp only [countKey, List.countP_cons] at ih ⊢
      omega

theorem countKey_set_self (k : String) (v : ResolutionInfo)
    (l : List (String × ResolutionInfo)) :
    countKey k (assocSet k v l) =
      (if assocHasKey k l then countKey k l else countKey k l + 1) := by
  induction l with
  | nil => simp [assocSet, assocHasKey, countKey, List.countP_cons]
  | cons p rest ih =>
    obtain ⟨pk, pv⟩ := p
    by_cases h : pk = k
    · subst h
      simp [assocSet, assocHasKey, countKey, List.countP_cons]
    · simp only [assocSet, beq_iff_eq, h, if_false, assocHasKey]
      simp only [countKey, List.countP_cons] at ih ⊢
      by_cases hm : assocHasKey k rest <;> simp_all [h]

theorem countKey_eq_zero (k : String) (l : List (String × ResolutionInfo)) :
    countKey k l = 0 ↔ assocHasKey k l = false := by
  induction l with
  | nil => simp [countKey, assocHasKey]
  | cons p rest ih =>
    obtain ⟨pk, pv⟩ := p
    by_cases h : pk = k <;>
      simp_all [countKey, assocHasKey, List.countP_cons, h]

/-- Unfolding of the post-filter input set over a cons cell. -/
theorem cleanedHosts_cons (a : String) (rest : List String) :
    cleanedHosts (a :: rest) =
      (if trimStr a = "" then cleanedHosts rest
        else trimStr a :: cleanedHosts rest) := by
  by_cases h : trimStr a = "" <;> simp [cleanedHosts, h]

/-- Key membership in one shard after a `shardSet` write. -/
theorem hasKey_shardSet (k k' : String) (v : ResolutionInfo) (m : ShardMap)
    (i : Nat) :
    assocHasKey k (shardSet k' v m i) =
      ((decide (i = homeShard k') && (k' == k)) || assocHasKey k (m i)) := by
  unfold shardSet
  by_cases hh : i = homeShard k'
  · rw [if_pos hh, assocHasKey_set]
    simp [hh]
  · rw [if_neg hh]
    simp [hh]

/-- Lookup in the home shard of a just-written key. -/
theorem find_shardSet_self (k : String) (v : ResolutionInfo) (m : ShardMap) :
    assocFind k (shardSet k v m (homeShard k)) = some v := by
  unfold shardSet
  rw [if_pos rfl, assocFind_set_self]

/-- Writing another key leaves a lookup unchanged. -/
theorem find_shardSet_ne (k k' : String) (v : ResolutionInfo) (m : ShardMap)
    (hne : k' ≠ k) :
    assocFind k (shardSet k' v m (homeShard k)) =
      assocFind k (m (homeShard k)) := by
  unfold shardSet
  by_cases hh : homeShard k = homeShard k'
  · rw [if_pos hh, assocFind_set_ne _ _ _ _ hne]
  · rw [if_neg hh]

/-- Multiplicity in one shard after a `shardSet` write. -/
theorem countKey_shardSet (k k' : String) (v : ResolutionInfo) (m : ShardMap)
    (i : Nat) :
    countKey k (shardSet k' v m i) =
      (if i = homeShard k' then countKey k (assocSet k' v (m i))
        else countKey k (m i)) := by
  unfold shardSet
  by_cases hh : i = homeShard k' <;> simp [hh]

/-- A worker/collector step on a blank host is a no-op. -/
theorem dnsWorkerStep_blank (oracle : String → ResolutionInfo)
    (st : ShardMap × Nat) (a : String) (ha : trimStr a = "") :
    dnsWorkerStep oracle st a = st := by
  simp [dnsWorkerStep, ha]

/-- The map component after one worker/collector step on a non-blank host. -/
theorem dnsWorkerStep_fst (oracle : String → ResolutionInfo)
    (st : ShardMap × Nat) (a : String) (ha : trimStr a ≠ "") :
    (dnsWorkerStep oracle st a).1 =
      shardSet (trimStr a) (oracle (trimStr a)) st.1 := by
  simp [dnsWorkerStep, ha]

/-- The overwrite counter after one worker/collector step on a non-blank
host. -/
theorem dnsWorkerStep_snd (oracle : String → ResolutionInfo)
    (st : ShardMap × Nat) (a : String) (ha : trimStr a ≠ "") :
    (dnsWorkerStep oracle st a).2 =
      (if assocHasKey (trimStr a) (st.1 (homeShard (trimStr a)))
        then st.2 + 1 else st.2) := by
  simp [dnsWorkerStep, ha]

/-- Key membership after the worker/collector fold: a key is present in shard
`i` exactly when it was present initially or it is a cleaned input host whose
home shard is `i`. -/
theorem hasKey_runFrom (oracle : String → ResolutionInfo)
    (subs : List String) (st : ShardMap × Nat) (k : String) (i : Nat) :
    assocHasKey k ((subs.foldl (dnsWorkerStep oracle) st).1 i) =
      (assocHasKey k (st.1 i) ||
        (decide (k ∈ cleanedHosts subs) && decide (i = homeShard k))) := by
  induction subs generalizing st with
  | nil => simp [cleanedHosts]
  | cons a rest ih =>
    rw [List.foldl_cons, ih, cleanedHosts_cons]
    by_cases ha : trimStr a = ""
    · rw [if_pos ha, dnsWorkerStep_blank oracle st a ha]
    · rw [if_neg ha, dnsWorkerStep_fst oracle st a ha, hasKey_shardSet]
      by_cases hkk : trimStr a = k
      · rw [← hkk]
        by_cases hik : i = homeShard (trimStr a) <;>
          simp [hik, List.mem_cons]
      · have hkk' : ¬k = trimStr a := fun hc => hkk hc.symm
        have hb : (trimStr a == k) = false := beq_eq_false_iff_ne.mpr hkk
        rw [hb]
        simp [hkk', List.mem_cons]

/-- Lookup after the worker/collector fold: in its home shard a cleaned input
host maps to its resolution; other keys keep their initial binding. -/
theorem find_runFrom (oracle : String → ResolutionInfo)
    (subs : List String) (st : ShardMap × Nat) (k : String) :
    assocFind k ((subs.foldl (dnsWorkerStep oracle) st).1 (homeShard k)) =
      (if k ∈ cleanedHosts subs then some (oracle k)
        else assocFind k (st.1 (homeShard k))) := by
  induction subs generalizing st with
  | nil => simp [cleanedHosts]
  | cons a rest ih =>
    rw [List.foldl_cons, ih, cleanedHosts_cons]
    by_cases ha : trimStr a = ""
    · rw [if_pos ha, dnsWorkerStep_blank oracle st a ha]
    · rw [if_neg ha]
      by_cases hm : k ∈ cleanedHosts rest
      · rw [if_pos hm, if_pos (List.mem_cons_of_mem _ hm)]
      · rw [if_neg hm, dnsWorkerStep_fst oracle st a ha]
        by_cases hkk : trimStr a = k
        · rw [if_pos (List.mem_cons.mpr (Or.inl hkk.symm)), ← hkk,
            find_shardSet_self]
        · rw [if_neg (fun hc =>
            (List.mem_cons.mp hc).elim (fun h1 => hkk h1.symm) hm),
            find_shardSet_ne _ _ _ _ hkk]

/-- Per-shard multiplicity bound preserved by the worker/collector fold. -/
theorem countKey_le_one_runFrom (oracle : String → ResolutionInfo)
    (subs : List String) (st : ShardMap × Nat)
    (hst : ∀ i k, countKey k (st.1 i) ≤ 1) :
    ∀ i k, countKey k ((subs.foldl (dnsWorkerStep oracle) st).1 i) ≤ 1 := by
  induction subs generalizing st with
  | nil => exact hst
  | cons a rest ih =>
    rw [List.foldl_cons]
    by_cases ha : trimStr a = ""
    · rw [dnsWorkerStep_blank oracle st a ha]
      exact ih st hst
    · refine ih _ ?_
      intro i k
      rw [dnsWorkerStep_fst oracle st a ha, countKey_shardSet]
      by_cases hh : i = homeShard (trimStr a)
      · rw [if_pos hh]
        by_cases hkk : trimStr a = k
        · rw [← hkk, countKey_set_self]
          by_cases hmem : assocHasKey (trimStr a) (st.1 i)
          · rw [if_pos hmem]
            exact hst i (trimStr a)
          · simp only [Bool.not_eq_true] at hmem
            rw [if_neg (by simp [hmem])]
            have := (countKey_eq_zero (trimStr a) (st.1 i)).mpr hmem
            omega
        · rw [countKey_set_ne _ _ _ _ hkk]
          exact hst i k
      · rw [if_neg hh]
        exact hst i k

/-- The overwrite counter stays zero as long as the cleaned inputs are
distinct and none of them is already present. -/
theorem overwrites_runFrom (oracle : String → ResolutionInfo)
    (subs : List String) (st : ShardMap × Nat)
    (hnd : (cleanedHosts subs).Nodup)
    (hst : ∀ k, k ∈ cleanedHosts subs → ∀ i, assocHasKey k (st.1 i) = false) :
    (subs.foldl (dnsWorkerStep oracle) st).2 = st.2 := by
  induction subs generalizing st with
  | nil => rfl
  | cons a rest ih =>
    rw [List.foldl_cons]
    by_cases ha : trimStr a = ""
    · rw [cleanedHosts_cons, if_pos ha] at hnd hst
      rw [dnsWorkerStep_blank oracle st a ha]
      exact ih st hnd hst
    · rw [cleanedHosts_cons, if_neg ha] at hnd hst
      have hnokey := hst (trimStr a) (List.mem_cons_self _ _)
        (homeShard (trimStr a))
      have hnotmem : trimStr a ∉ cleanedHosts rest := (List.nodup_cons.mp hnd).1
      have hrec := ih (dnsWorkerStep oracle st a) hnd.of_cons (by
        intro k hk i
        have hkne : ¬trimStr a = k := fun hc => hnotmem (hc ▸ hk)
        have hb : (trimStr a == k) = false := beq_eq_false_iff_ne.mpr hkne
        rw [dnsWorkerStep_fst oracle st a ha, hasKey_shardSet, hb]
        simp [hst k (List.mem_cons_of_mem _ hk) i])
      rw [hrec, dnsWorkerStep_snd oracle st a ha, if_neg (by simp [hnokey])]

/-- Multiplicity of a key over the concatenation of all shards. -/
theorem countKey_allEntries (m : ShardMap) (k : String) :
    countKey k (allEntries m) =
      (((List.range shardCount).map (fun i => countKey k (m i)))).sum := by
  unfold allEntries countKey
  rw [List.countP_flatten]
  rw [List.map_map]
  rfl

/-- Summing an indicator over an interval of indices. -/
theorem sum_indicator_range (n j : Nat) (f : Nat → Nat) (hj : j < n)
    (hf : ∀ i, i ≠ j → f i = 0) :
    ((List.range n).map f).sum = f j := by
  induction n with
  | zero => omega
  | succ n ihn =>
    rw [List.range_succ, List.map_append, List.sum_append]
    by_cases hjn : j = n
    · subst hjn
      have : ∀ i ∈ List.range j, f i = 0 := by
        intro i hi
        exact hf i (Nat.ne_of_lt (List.mem_range.mp hi))
      have hsum : ((List.range j).map f).sum = 0 := by
        apply List.sum_eq_zero
        intro x hx
        obtain ⟨i, hi, rfl⟩ := List.mem_map.mp hx
        exact this i hi
      simp [hsum]
    · have hj' : j < n := by omega
      rw [ihn hj']
      simp [hf n (fun hc => hjn hc.symm)]

/-- Home shards lie below the shard count. -/
theorem homeShard_lt (k : String) : homeShard k < shardCount := by
  exact Nat.mod_lt _ (by decide)

/-- A constant resolution oracle for exercising the pipeline on concrete
inputs. -/
def dnsOracleConst : String → ResolutionInfo :=
  fun _ => { status := "resolved", A := [], CNAME := [] }

/-- C7, counterexample: feeding the same host twice makes the collector write
the already-populated entry again — the `Set` call at the second occurrence
finds the key present and overwrites it, so the "never overwritten" invariant
fails on duplicate (post-trim) inputs. -/
theorem c7_counterexample :
    (runDNSCollection dnsOracleConst ["a.com", "a.com"]).2 = 1 ∧
      ¬(runDNSCollection dnsOracleConst ["a.com", "a.com"]).2 = 0 := by
  have h1 : (runDNSCollection dnsOracleConst ["a.com", "a.com"]).2 = 1 := rfl
  exact ⟨h1, by rw [h1]; exact one_ne_zero⟩

/-- C7, amended: if the cleaned input hosts are pairwise distinct, no
populated entry is ever written again (the overwrite counter stays zero); and
unconditionally every input host (modulo whitespace/empty filtering) has
exactly one entry across all shards, located in the shard indexed by
`hash(host) mod shard_count` and holding that host's resolution, with no
entry for it in any other shard. Duplicate cleaned inputs re-write their
single entry, which is what the counterexample exhibits. -/
theorem dnsShardedMap_spec (oracle : String → ResolutionInfo)
    (subdomains : List String) :
    ((cleanedHosts subdomains).Nodup →
        (runDNSCollection oracle subdomains).2 = 0) ∧
      (∀ h ∈ subdomains, trimStr h ≠ "" →
        countKey (trimStr h)
            (allEntries (runDNSCollection oracle subdomains).1) = 1 ∧
          assocFind (trimStr h)
              ((runDNSCollection oracle subdomains).1
                (homeShard (trimStr h))) = some (oracle (trimStr h)) ∧
          ∀ i, i ≠ homeShard (trimStr h) →
            assocHasKey (trimStr h)
              ((runDNSCollection oracle subdomains).1 i) = false) := by
  constructor
  · intro hnd
    exact overwrites_runFrom oracle subdomains (emptyShards, 0) hnd
      (fun k _ i => by simp [emptyShards, assocHasKey])
  · intro h hmem htrim
    simp only [runDNSCollection]
    have hclean : trimStr h ∈ cleanedHosts subdomains := by
      simp only [cleanedHosts, List.mem_filter, List.mem_map]
      exact ⟨⟨h, hmem, rfl⟩, by simpa using htrim⟩
    have hfind := find_runFrom oracle subdomains (emptyShards, 0) (trimStr h)
    rw [if_pos hclean] at hfind
    have hhk : ∀ i, assocHasKey (trimStr h)
        ((subdomains.foldl (dnsWorkerStep oracle) (emptyShards, 0)).1 i) =
          decide (i = homeShard (trimStr h)) := by
      intro i
      have := hasKey_runFrom oracle subdomains (emptyShards, 0) (trimStr h) i
      simpa [emptyShards, assocHasKey, hclean] using this
    refine ⟨?_, hfind, fun i hi => by rw [hhk i]; simp [hi]⟩
    have hbound := countKey_le_one_runFrom oracle subdomains (emptyShards, 0)
      (fun i k => by simp [emptyShards, countKey])
    rw [countKey_allEntries]
    rw [sum_indicator_range shardCount (homeShard (trimStr h)) _
      (homeShard_lt (trimStr h))]
    · have hk1 : assocHasKey (trimStr h)
          ((subdomains.foldl (dnsWorkerStep oracle) (emptyShards, 0)).1
            (homeShard (trimStr h))) = true := by
        rw [hhk]
        simp
      have hpos : countKey (trimStr h)
          ((subdomains.foldl (dnsWorkerStep oracle) (emptyShards, 0)).1
            (homeShard (trimStr h))) ≠ 0 := by
        intro hzero
        rw [countKey_eq_zero] at hzero
        rw [hk1] at hzero
        exact absurd hzero (by decide)
      have := hbound (homeShard (trimStr h)) (trimStr h)
      omega
    · intro i hi
      rw [countKey_eq_zero, hhk i]
      simp [hi]

/-- C7, amended, witness: on the concrete input list ["a.com", "b.org"] with
distinct hosts the overwrite counter is zero, and "a.com" has exactly one
entry, located in its home shard. -/
theorem dnsShardedMap_spec_witness :
    (runDNSCollection dnsOracleConst ["a.com", "b.org"]).2 = 0 ∧
      countKey (trimStr "a.com")
        (allEntries (runDNSCollection dnsOracleConst ["a.com", "b.org"]).1) = 1 :=
  ⟨(dnsShardedMap_spec dnsOracleConst ["a.com", "b.org"]).1 (by decide),
   ((dnsShardedMap_spec dnsOracleConst ["a.com", "b.org"]).2 "a.com"
      (by decide) (by decide)).1⟩

end ASMWorker
